import Mathlib

/-
Verification of the Python_Network_Tools repository.

Shallow embedding of the port-parsing, probing and concurrent-scan logic of
  Mini_Port_Scanner_Advanced.py, Recon_tool_Network+Port_Scanner.py,
  Network_IP_Scanner.py
as executable Lean definitions, together with theorems settling the claims
about them.  Strings are handled at the List Char level (a Python str is a
sequence of characters); socket, subprocess and thread-pool effects are
made explicit as parameters describing what the environment returned.
-/

namespace NetTools

/-! ### Python string helpers

`str.split()` (whitespace split, dropping empty fields), `str.replace(",", " ")`,
`int(token)` (optional sign followed by decimal digits; Python's underscore
grouping and non-ASCII digits are not used by any input considered here),
and `token.split("-", 1)` restricted to tokens that contain a dash. -/

/-- Accumulating worker for whitespace splitting: `cur` holds the characters of
the current field in reverse order. Models Python `str.split()` with no
arguments: fields are maximal runs of non-whitespace, empty fields dropped. -/
def pySplitWsAux : List Char → List Char → List (List Char)
  | [], cur => if cur = [] then [] else [cur.reverse]
  | c :: rest, cur =>
    if c.isWhitespace then
      if cur = [] then pySplitWsAux rest []
      else cur.reverse :: pySplitWsAux rest []
    else pySplitWsAux rest (c :: cur)

/-- Python `s.split()` on a character list. -/
def pySplitWs (l : List Char) : List (List Char) := pySplitWsAux l []

/-- Python `s.replace(",", " ")`. -/
def pyReplaceComma (l : List Char) : List Char :=
  l.map (fun c => if c = ',' then ' ' else c)

/-- Tokenisation in `parse_ports`: `port_input.replace(",", " ").split()`. -/
def pyTokens (s : String) : List (List Char) :=
  pySplitWs (pyReplaceComma s.data)

/-- Digit-string to number; `none` on the first non-digit character. -/
def pyDigitsAux : List Char → Nat → Option Nat
  | [], acc => some acc
  | c :: rest, acc =>
    if c.isDigit then pyDigitsAux rest (acc * 10 + (c.toNat - 48)) else none

/-- Nonempty all-digit parse, the unsigned core of Python `int(str)`. -/
def pyDigits (l : List Char) : Option Nat :=
  if l = [] then none else pyDigitsAux l 0

/-- Python `int(token)` for whitespace-free tokens: optional single leading
sign, then decimal digits; `none` models `int` raising `ValueError`. -/
def pyInt (l : List Char) : Option Int :=
  match l with
  | [] => none
  | c :: rest =>
    if c = '+' then (pyDigits rest).map (fun n => (n : Int))
    else if c = '-' then (pyDigits rest).map (fun n => -(n : Int))
    else (pyDigits l).map (fun n => (n : Int))

/-- Python `token.split("-", 1)` for a token known to contain a dash: the part
before the first dash and the part after it. -/
def pySplit1 : List Char → List Char × List Char
  | [] => ([], [])
  | c :: rest =>
    if c = '-' then ([], rest)
    else
      let p := pySplit1 rest
      (c :: p.1, p.2)

/-! ### Port expanders

`parse_ports` from Mini_Port_Scanner_Advanced.py and `parse_ports_simple`
from Recon_tool_Network+Port_Scanner.py.  A Python `ValueError` is modelled
as `Except.error` carrying the message (Python additionally wraps the token
in single quotes).  The running Python `set` of ports is modelled as a
duplicate-free `List Int` maintained by `List.insert` (which inserts only
absent elements, exactly the observable behaviour of `set.add`), and the
final `sorted(...)` is `List.insertionSort`. -/

/-- Python `range(a, b + 1)` as a list of integers. -/
def pyRangeList (a b : Int) : List Int :=
  (List.range ((b + 1 - a).toNat)).map (fun (k : Nat) => a + (k : Int))

/-- Python `ports.update(range(a, b + 1))`: add every element of the range to
the set (elements already present are left alone). -/
def setUpdateRange (ports : List Int) (a b : Int) : List Int :=
  (pyRangeList a b).foldl (fun s x => s.insert x) ports

/-- One iteration of the `for token in tokens` loop of `parse_ports`.  In the
range branch Python swaps the endpoints when `start > end`, checks the bounds,
and `ports.update(range(start, end + 1))`; in the single-port branch it checks
the bounds and `ports.add(p)`.  Any `ValueError` inside the `try` (including
from `int`) is re-raised with the shown message. -/
def parse_token (ports : List Int) (token : List Char) : Except String (List Int) :=
  if token.contains '-' then
    let pr := pySplit1 token
    match pyInt pr.1, pyInt pr.2 with
    | some a, some b =>
      let start1 : Int := if a > b then b else a
      let end1 : Int := if a > b then a else b
      if start1 < 1 ∨ end1 > 65535 then
        Except.error ("Invalid range token: " ++ String.mk token)
      else
        Except.ok (setUpdateRange ports start1 end1)
    | _, _ => Except.error ("Invalid range token: " ++ String.mk token)
  else
    match pyInt token with
    | some p =>
      if p < 1 ∨ p > 65535 then
        Except.error ("Invalid port token: " ++ String.mk token)
      else
        Except.ok (ports.insert p)
    | none => Except.error ("Invalid port token: " ++ String.mk token)

/-- `parse_ports(port_input)` of Mini_Port_Scanner_Advanced.py: tokenise on
commas/whitespace, fold the token loop over an initially empty set, and return
`sorted(ports)` on success. -/
def parse_ports (port_input : String) : Except String (List Int) :=
  ((pyTokens port_input).foldlM parse_token []).map
    (fun ps => ps.insertionSort (· ≤ ·))

/-- `parse_ports_simple(port_input)` of Recon_tool_Network+Port_Scanner.py:
`int(token)` for each whitespace-separated token, appended in order, with no
range or bounds checking; a non-integer token raises `ValueError`. -/
def parse_ports_simple (port_input : String) : Except String (List Int) :=
  (pySplitWs port_input.data).foldlM
    (fun acc t =>
      match pyInt t with
      | some n => Except.ok (acc ++ [n])
      | none => Except.error ("invalid literal for int with base 10: " ++ String.mk t))
    []

/-- A token on which the loop body of `parse_ports` raises `ValueError`:
an out-of-range port, an out-of-range or non-numeric range, or a token that
is not an integer literal at all.  The branch structure mirrors
`parse_token`. -/
def bad_token (token : List Char) : Bool :=
  if token.contains '-' then
    let pr := pySplit1 token
    match pyInt pr.1, pyInt pr.2 with
    | some a, some b =>
      let start1 : Int := if a > b then b else a
      let end1 : Int := if a > b then a else b
      decide (start1 < 1 ∨ end1 > 65535)
    | _, _ => true
  else
    match pyInt token with
    | some p => decide (p < 1 ∨ p > 65535)
    | none => true

/-! ### The concurrent scan engine

`scan_port` and `scan_ports_concurrent` of Mini_Port_Scanner_Advanced.py.
The network and thread-pool environment is made explicit: each submitted
port is paired with the fate of its future — either `scan_port` ran and its
`connect_ex` call returned a code or raised, or `fut.result()` itself
raised.  `as_completed` yields futures in completion order, so the engine is
a fold over the list of fates in that order.  A `KeyboardInterrupt`
delivered after `i` loop iterations is modelled by the `some i` argument of
`scan_ports_concurrent_cancellable`; the local buckets at the moment the
re-raised interrupt propagates (which the caller never receives) are carried
in the `Except.error` payload so theorems can speak about them. -/

/-- What `s.connect_ex((host, port))` did inside `scan_port`: returned a
code (`0` means success) or raised an exception whose `str` is `msg`. -/
inductive ConnectOutcome where
  | code (c : Int)
  | exc (msg : String)
deriving DecidableEq

/-- `scan_port(host, port, timeout)`: returns `(port, is_open, err, elapsed)`;
a raised exception is caught and reported as `(port, False, str(e), elapsed)`.
The measured wall-clock `elapsed` is passed in as data. -/
def scan_port (port : Nat) (conn : ConnectOutcome) (elapsed : Nat) :
    Nat × Bool × Option String × Nat :=
  match conn with
  | .code c =>
    if c = 0 then (port, true, none, elapsed) else (port, false, none, elapsed)
  | .exc e => (port, false, some e, elapsed)

/-- The fate of one submitted future as observed by the `as_completed` loop:
either `fut.result()` returned the tuple computed by `scan_port` (whose
`connect_ex` behaviour and elapsed time are recorded), or `fut.result()`
itself raised with the given message (caught by the `except Exception`
branch). -/
inductive FutFate where
  | result (conn : ConnectOutcome) (elapsed : Nat)
  | raised (msg : String)
deriving DecidableEq

/-- One submitted probe unit: the port `p = futures[fut]` together with the
fate of its future. -/
structure ProbeFate where
  port : Nat
  fate : FutFate
deriving DecidableEq

/-- An element of `results_open`: the dict `{"port": ..., "elapsed": ...}`. -/
structure OpenEntry where
  port : Nat
  elapsed : Nat
deriving DecidableEq

/-- An element of `results_closed`:
the dict `{"port": ..., "error": ..., "elapsed": ...}`. -/
structure ClosedEntry where
  port : Nat
  error : Option String
  elapsed : Nat
deriving DecidableEq

/-- The dict returned by `scan_ports_concurrent`:
`{"open": results_open, "closed": results_closed}`. -/
structure ScanResults where
  results_open : List OpenEntry
  results_closed : List ClosedEntry
deriving DecidableEq

/-- One iteration of the `for fut in as_completed(futures)` loop: unpack
`fut.result()` and append to the open or closed bucket, or catch the raised
exception and append `{"port": p, "error": str(exc), "elapsed": 0.0}`. -/
def process_future (acc : ScanResults) (f : ProbeFate) : ScanResults :=
  match f.fate with
  | .result conn elapsed =>
    match scan_port f.port conn elapsed with
    | (port, is_open, err, el) =>
      if is_open then
        { acc with results_open := acc.results_open ++ [⟨port, el⟩] }
      else
        { acc with results_closed := acc.results_closed ++ [⟨port, err, el⟩] }
  | .raised msg =>
    { acc with results_closed := acc.results_closed ++ [⟨f.port, some msg, 0⟩] }

/-- `scan_ports_concurrent(host, ports, ...)` when no interrupt arrives:
fold the completion-ordered fates into the two result buckets. -/
def scan_ports_concurrent (fates : List ProbeFate) : ScanResults :=
  fates.foldl process_future ⟨[], []⟩

/-- The `as_completed` loop with a pending `KeyboardInterrupt` that fires
after `budget` further iterations: when it fires, the loop calls
`executor.shutdown(wait=False, cancel_futures=True)` and re-raises,
abandoning the buckets built so far (returned in the `Except.error`
payload). -/
def scan_loop_int : List ProbeFate → Nat → ScanResults → Except ScanResults ScanResults
  | [], _, acc => .ok acc
  | _ :: _, 0, acc => .error acc
  | f :: rest, b + 1, acc => scan_loop_int rest b (process_future acc f)

/-- A whole run of `scan_ports_concurrent`: `none` for an undisturbed run,
`some i` for a `KeyboardInterrupt` delivered after `i` loop iterations
(ineffective if the loop has already finished). `Except.ok` is the returned
dict; `Except.error` is the re-raised interrupt. -/
def scan_ports_concurrent_cancellable (fates : List ProbeFate)
    (interruptAfter : Option Nat) : Except ScanResults ScanResults :=
  match interruptAfter with
  | none => .ok (scan_ports_concurrent fates)
  | some i => scan_loop_int fates i ⟨[], []⟩

/-- The multiset of ports appearing in the two result buckets. -/
def portsMultiset (r : ScanResults) : Multiset Nat :=
  ((r.results_open.map OpenEntry.port : List Nat) : Multiset Nat)
    + ((r.results_closed.map ClosedEntry.port : List Nat) : Multiset Nat)

/-! ### Liveness and protocol probers -/

/-- What `subprocess.run(["ping", ...])` did inside `ping_ip`: completed
with a return code, or raised an exception. -/
inductive PingRun where
  | completed (returncode : Int)
  | raised (msg : String)
deriving DecidableEq

/-- `ping_ip(ip)` of Network_IP_Scanner.py (textually identical in
Recon_tool_Network+Port_Scanner.py): `True` iff the ping subprocess
completed with return code 0; any exception is caught by the bare
`except` and reported as `False`. -/
def ping_ip (r : PingRun) : Bool :=
  match r with
  | .completed c => if c = 0 then true else false
  | .raised _ => false

/-- `is_port_open(host, port, proto)` of the TCP/UDP scanner appended to
Recon_tool_Network+Port_Scanner.py: chooses a stream or datagram socket by
protocol name (raising `ValueError` for anything else) and reports open iff
`connect_ex` returned `0`.  Host and port are absorbed into the
`connect_ex` result parameter. -/
def is_port_open (proto : String) (connect_ex_result : Int) :
    Except String Bool :=
  if proto = "TCP" then
    Except.ok (if connect_ex_result = 0 then true else false)
  else if proto = "UDP" then
    Except.ok (if connect_ex_result = 0 then true else false)
  else Except.error "Invalid protocol"

/-- For a UDP datagram socket, `connect_ex` returns `0` unless the operating
system reports an immediate fault (e.g. network unreachable), in which case
it returns that nonzero errno; `none` models the no-fault case. -/
def udp_connect_ex (fault : Option Int) : Int :=
  match fault with
  | none => 0
  | some e => e

/-! ### Subnet expansion for liveness sweeps

`threaded_network_scan` (Network_IP_Scanner.py) and `discover_active_hosts`
(Recon_tool_Network+Port_Scanner.py) both build
`hosts = list(ipaddress.ip_network(subnet, strict=False).hosts())`.
IPv4 addresses are 32-bit numbers, a subnet is an address plus a prefix
length `p ≤ 32`, and the semantics of `hosts()` follows the `ipaddress`
module: the addresses strictly between network and broadcast, except that a
/31 yields both of its addresses and a /32 yields the single address. -/

/-- The network address of `addr/p`: host bits zeroed (what
`strict=False` masking computes). -/
def network_address (addr p : Nat) : Nat :=
  addr / 2 ^ (32 - p) * 2 ^ (32 - p)

/-- The broadcast address of `addr/p`: host bits all ones. -/
def broadcast_address (addr p : Nat) : Nat :=
  network_address addr p + 2 ^ (32 - p) - 1

/-- `list(network.hosts())` for `addr/p`. -/
def hosts (addr p : Nat) : List Nat :=
  if p = 31 then [network_address addr p, network_address addr p + 1]
  else if p = 32 then [network_address addr p]
  else List.range' (network_address addr p + 1) (2 ^ (32 - p) - 2)

/-! ### The worker pool

`scan_ports_concurrent` submits every port to a
`ThreadPoolExecutor(max_workers=k)`: the pool runs at most `k` threads and
each thread executes at most one `scan_port` call at a time, taking the
next pending future from the queue when idle. -/

/-- The state of the executor: `pending` is the submission-ordered queue of
ports whose futures no thread has picked up yet, `workers` maps each of the
pool's at most `k` threads to the port it is currently probing (`none` when
idle), and `done` lists completed ports in completion order. -/
structure PoolState (k : Nat) where
  pending : List Nat
  workers : Fin k → Option Nat
  done : List Nat

/-- Execution steps of the pool: an idle thread picks up the next pending
future, or a thread finishes its probe. -/
inductive PoolStep (k : Nat) : PoolState k → PoolState k → Prop where
  | dispatch (s : PoolState k) (w : Fin k) (p : Nat) (rest : List Nat) :
      s.workers w = none → s.pending = p :: rest →
      PoolStep k s ⟨rest, Function.update s.workers w (some p), s.done⟩
  | complete (s : PoolState k) (w : Fin k) (p : Nat) :
      s.workers w = some p →
      PoolStep k s
        ⟨s.pending, Function.update s.workers w none, s.done ++ [p]⟩

/-- The pool right after `scan_ports_concurrent` submits its futures: all
ports queued, every worker idle, nothing completed. -/
def initState (k : Nat) (ports : List Nat) : PoolState k :=
  ⟨ports, fun _ => none, []⟩

/-- The number of probes currently in flight: busy workers. -/
def inFlight {k : Nat} (s : PoolState k) : Nat :=
  (List.ofFn s.workers).countP (fun o => o.isSome)

/-! ### Lemmas about the expander -/

theorem pySplit1_append (s1 s2 : List Char) (h : '-' ∉ s1) :
    pySplit1 (s1 ++ '-' :: s2) = (s1, s2) := by
  induction s1 with
  | nil => simp [pySplit1]
  | cons c cs ih =>
    have hc : ¬ c = '-' := fun hc => h (hc ▸ List.mem_cons_self c cs)
    have hcs : '-' ∉ cs := fun hm => h (List.mem_cons_of_mem _ hm)
    simp [pySplit1, hc, ih hcs]

theorem mem_pyRangeList {a b x : Int} : x ∈ pyRangeList a b ↔ a ≤ x ∧ x ≤ b := by
  unfold pyRangeList
  constructor
  · intro hx
    obtain ⟨k, hk, hkx⟩ := List.mem_map.mp hx
    rw [List.mem_range] at hk
    omega
  · intro hx
    refine List.mem_map.mpr ⟨(x - a).toNat, List.mem_range.mpr ?_, ?_⟩ <;> omega

theorem mem_foldl_insert (l : List Int) : ∀ (s : List Int) (x : Int),
    x ∈ l.foldl (fun s y => s.insert y) s ↔ x ∈ s ∨ x ∈ l := by
  induction l with
  | nil => intro s x; simp
  | cons y ys ih =>
    intro s x
    simp only [List.foldl_cons, ih, List.mem_insert_iff, List.mem_cons]
    tauto

theorem mem_setUpdateRange {s : List Int} {a b x : Int} :
    x ∈ setUpdateRange s a b ↔ x ∈ s ∨ (a ≤ x ∧ x ≤ b) := by
  simp [setUpdateRange, mem_foldl_insert, mem_pyRangeList]

theorem nodup_foldl_insert (l : List Int) : ∀ s : List Int, s.Nodup →
    (l.foldl (fun s y => s.insert y) s).Nodup := by
  induction l with
  | nil => intro s hs; simpa
  | cons y ys ih => intro s hs; exact ih _ hs.insert

theorem nodup_setUpdateRange {s : List Int} {a b : Int} (hs : s.Nodup) :
    (setUpdateRange s a b).Nodup :=
  nodup_foldl_insert _ _ hs

theorem parse_token_error_of_bad {t : List Char} (hbad : bad_token t = true)
    (acc : List Int) : ∃ m, parse_token acc t = Except.error m := by
  unfold parse_token
  unfold bad_token at hbad
  by_cases hc : t.contains '-' = true
  · rw [if_pos hc] at hbad ⊢
    rcases hA : pyInt (pySplit1 t).1 with _ | a <;>
      rcases hB : pyInt (pySplit1 t).2 with _ | b <;>
      simp only [hA, hB] at hbad ⊢
    · exact ⟨_, rfl⟩
    · exact ⟨_, rfl⟩
    · exact ⟨_, rfl⟩
    · rw [if_pos (of_decide_eq_true hbad)]
      exact ⟨_, rfl⟩
  · rw [if_neg hc] at hbad ⊢
    rcases hA : pyInt t with _ | p <;> simp only [hA] at hbad ⊢
    · exact ⟨_, rfl⟩
    · rw [if_pos (of_decide_eq_true hbad)]
      exact ⟨_, rfl⟩

theorem foldlM_parse_token_error {t : List Char} (hbad : bad_token t = true) :
    ∀ (l : List (List Char)), t ∈ l → ∀ acc : List Int,
      ∃ m, l.foldlM parse_token acc = Except.error m := by
  intro l
  induction l with
  | nil => intro h; cases h
  | cons h tl ih =>
    intro hmem acc
    rw [List.foldlM_cons]
    rcases List.mem_cons.mp hmem with rfl | hmem'
    · obtain ⟨m, hm⟩ := parse_token_error_of_bad hbad acc
      exact ⟨m, by rw [hm]; rfl⟩
    · rcases hacc : parse_token acc h with m | acc'
      · exact ⟨m, rfl⟩
      · obtain ⟨m, hm⟩ := ih hmem' acc'
        exact ⟨m, hm⟩

theorem parse_token_range_ok {u v : List Char} {a b : Int} (hu : '-' ∉ u)
    (ha : pyInt u = some a) (hb : pyInt v = some b)
    (hlo : 1 ≤ min a b) (hhi : max a b ≤ 65535) :
    parse_token [] (u ++ '-' :: v)
      = Except.ok (setUpdateRange [] (min a b) (max a b)) := by
  have hcon : (u ++ '-' :: v).contains '-' = true := by simp
  unfold parse_token
  rw [if_pos hcon, pySplit1_append u v hu]
  simp only [ha, hb]
  have e1 : (if b < a then b else a) = min a b := by split <;> omega
  have e2 : (if b < a then a else b) = max a b := by split <;> omega
  rw [e1, e2, if_neg (by push_neg; exact ⟨hlo, hhi⟩)]

/-! ### Claim theorems about the expanders -/

/-- C4 (amended): for every input string one of whose tokens is out of range
or malformed, `parse_ports` raises `ValueError` and returns no partial list.
(The claim as stated also covers `parse_ports_simple`, which accepts
out-of-range integer tokens; see the counterexample.) -/
theorem C4_parse_ports_rejects_invalid (s : String) (t : List Char)
    (ht : t ∈ pyTokens s) (hbad : bad_token t = true) :
    ∃ msg, parse_ports s = Except.error msg := by
  obtain ⟨m, hm⟩ := foldlM_parse_token_error hbad (pyTokens s) ht []
  exact ⟨m, by unfold parse_ports; rw [hm]; rfl⟩

/-- C4 witness: the single token `"99999"` is out of range, and
`parse_ports "99999"` indeed fails. -/
theorem C4_parse_ports_rejects_invalid_witness :
    (['9', '9', '9', '9', '9'] ∈ pyTokens "99999"
      ∧ bad_token ['9', '9', '9', '9', '9'] = true)
    ∧ ∃ msg, parse_ports "99999" = Except.error msg :=
  ⟨⟨by decide, by decide⟩,
    C4_parse_ports_rejects_invalid "99999" ['9', '9', '9', '9', '9']
      (by decide) (by decide)⟩

/-- C4 counterexample: `parse_ports_simple` (one of the two expanders the
claim covers) accepts the out-of-range token `"99999"` and returns a port
list instead of failing. -/
theorem C4_counterexample_parse_ports_simple :
    parse_ports_simple "99999" = Except.ok [99999] ∧ (65535 : Int) < 99999 :=
  ⟨rfl, by decide⟩

/-- C5: for every well-formed range token built from numeral parts denoting
`a` and `b` with `1 ≤ a ≤ b ≤ 65535`, `parse_ports` succeeds with exactly the
integers `a` through `b` inclusive, in strictly ascending order with no
duplicates. -/
theorem C5_range_expansion (s : String) (s1 s2 : List Char) (a b : Int)
    (htok : pyTokens s = [s1 ++ '-' :: s2]) (hnd : '-' ∉ s1)
    (ha : pyInt s1 = some a) (hb : pyInt s2 = some b)
    (h1 : 1 ≤ a) (hab : a ≤ b) (h65 : b ≤ 65535) :
    ∃ l, parse_ports s = Except.ok l ∧ l.Sorted (· < ·) ∧
      ∀ x : Int, x ∈ l ↔ a ≤ x ∧ x ≤ b := by
  have hcontains : (s1 ++ '-' :: s2).contains '-' = true := by simp
  have hng : ¬ b < a := not_lt.mpr hab
  have hguard : ¬ (a < 1 ∨ 65535 < b) := by push_neg; exact ⟨h1, h65⟩
  have hpt : parse_token [] (s1 ++ '-' :: s2) = Except.ok (setUpdateRange [] a b) := by
    simp [parse_token, hcontains, pySplit1_append s1 s2 hnd, ha, hb, hng, hguard]
  refine ⟨(setUpdateRange [] a b).insertionSort (· ≤ ·), ?_, ?_, ?_⟩
  · unfold parse_ports
    rw [htok, List.foldlM_cons, hpt]
    rfl
  · have hnd2 : (setUpdateRange ([] : List Int) a b).Nodup :=
      nodup_setUpdateRange List.nodup_nil
    exact (List.sorted_insertionSort _ _).lt_of_le
      (((List.perm_insertionSort _ _).nodup_iff).mpr hnd2)
  · intro x
    rw [List.mem_insertionSort _, mem_setUpdateRange]
    simp

/-- C5 witness: `"20-25"` expands to `[20, 21, 22, 23, 24, 25]`. -/
theorem C5_range_expansion_witness :
    parse_ports "20-25" = Except.ok [20, 21, 22, 23, 24, 25]
    ∧ ∃ l, parse_ports "20-25" = Except.ok l ∧ l.Sorted (· < ·) ∧
        ∀ x : Int, x ∈ l ↔ 20 ≤ x ∧ x ≤ 25 :=
  ⟨rfl, C5_range_expansion "20-25" ['2', '0'] ['2', '5'] 20 25 rfl (by decide)
    rfl rfl (by decide) (by decide) (by decide)⟩

/-- C10: a reversed range token `"b-a"` is silently normalised by swapping
its endpoints, producing the same result as `"a-b"`. -/
theorem C10_reversed_range_normalized (s t : String) (s1 s2 : List Char)
    (a b : Int)
    (hs : pyTokens s = [s1 ++ '-' :: s2]) (ht : pyTokens t = [s2 ++ '-' :: s1])
    (h1 : '-' ∉ s1) (h2 : '-' ∉ s2)
    (ha : pyInt s1 = some a) (hb : pyInt s2 = some b)
    (hmin : 1 ≤ min a b) (hmax : max a b ≤ 65535) :
    parse_ports s = parse_ports t := by
  have e1 := parse_token_range_ok h1 ha hb hmin hmax
  have e2 := parse_token_range_ok h2 hb ha
    (by rw [min_comm]; exact hmin) (by rw [max_comm]; exact hmax)
  unfold parse_ports
  rw [hs, ht, List.foldlM_cons, List.foldlM_cons, e1, e2, min_comm b a,
    max_comm b a]

/-- C10 witness: `"25-20"` and `"20-25"` parse to the same port list. -/
theorem C10_reversed_range_normalized_witness :
    parse_ports "25-20" = parse_ports "20-25" :=
  C10_reversed_range_normalized "25-20" "20-25" ['2', '5'] ['2', '0'] 25 20
    rfl rfl (by decide) (by decide) rfl rfl (by decide) (by decide)

/-! ### Lemmas about the engine -/

theorem coe_middle (A C : List Nat) (p : Nat) :
    ((A ++ p :: C : List Nat) : Multiset Nat)
      = (↑(A ++ C) : Multiset Nat) + {p} := by
  rw [← Multiset.coe_add, ← Multiset.coe_add, ← Multiset.cons_coe,
    ← Multiset.singleton_add]
  abel

theorem coe_append_singleton (A C : List Nat) (p : Nat) :
    ((A ++ (C ++ [p]) : List Nat) : Multiset Nat)
      = (↑(A ++ C) : Multiset Nat) + {p} := by
  rw [← Multiset.coe_add, ← Multiset.coe_add, ← Multiset.coe_add,
    Multiset.coe_singleton]
  abel

/-- Each loop iteration grows the two buckets by exactly one entry. -/
theorem process_future_counts (acc : ScanResults) (f : ProbeFate) :
    (process_future acc f).results_open.length
      + (process_future acc f).results_closed.length
      = (acc.results_open.length + acc.results_closed.length) + 1 := by
  rcases f with ⟨p, fate⟩
  rcases fate with ⟨conn, el⟩ | msg
  · rcases conn with c | e
    · by_cases h : c = 0 <;> simp [process_future, scan_port, h] <;> omega
    · simp [process_future, scan_port]
      omega
  · simp [process_future]
    omega

theorem foldl_counts (fates : List ProbeFate) : ∀ acc : ScanResults,
    (fates.foldl process_future acc).results_open.length
      + (fates.foldl process_future acc).results_closed.length
      = acc.results_open.length + acc.results_closed.length + fates.length := by
  induction fates with
  | nil => intro acc; simp
  | cons f rest ih =>
    intro acc
    rw [List.foldl_cons, ih, process_future_counts]
    simp [List.length_cons]
    omega

/-- Each loop iteration adds exactly the processed unit's port to the
buckets. -/
theorem process_future_ports (acc : ScanResults) (f : ProbeFate) :
    portsMultiset (process_future acc f) = portsMultiset acc + {f.port} := by
  rcases f with ⟨p, fate⟩
  rcases fate with ⟨conn, el⟩ | msg
  · rcases conn with c | e
    · by_cases h : c = 0
      · simp [process_future, scan_port, h, portsMultiset]
        exact coe_middle _ _ p
      · simp [process_future, scan_port, h, portsMultiset]
        exact coe_append_singleton _ _ p
    · simp [process_future, scan_port, portsMultiset]
      exact coe_append_singleton _ _ p
  · simp [process_future, portsMultiset]
    exact coe_append_singleton _ _ p

theorem foldl_ports (fates : List ProbeFate) : ∀ acc : ScanResults,
    portsMultiset (fates.foldl process_future acc)
      = portsMultiset acc
        + ((fates.map ProbeFate.port : List Nat) : Multiset Nat) := by
  induction fates with
  | nil => intro acc; simp
  | cons f rest ih =>
    intro acc
    rw [List.foldl_cons, ih, process_future_ports, List.map_cons,
      ← Multiset.cons_coe, ← Multiset.singleton_add]
    abel

/-- The closed bucket only ever grows during the loop. -/
theorem foldl_closed_extend (fates : List ProbeFate) : ∀ acc : ScanResults,
    ∃ tl, (fates.foldl process_future acc).results_closed
      = acc.results_closed ++ tl := by
  induction fates with
  | nil => intro acc; exact ⟨[], by simp⟩
  | cons f rest ih =>
    intro acc
    obtain ⟨tl, htl⟩ := ih (process_future acc f)
    rw [List.foldl_cons]
    rcases f with ⟨p, fate⟩
    rcases fate with ⟨conn, el⟩ | msg
    · rcases conn with c | e
      · by_cases h : c = 0
        · exact ⟨tl, by rw [htl]; simp [process_future, scan_port, h]⟩
        · exact ⟨⟨p, none, el⟩ :: tl,
            by rw [htl]; simp [process_future, scan_port, h]⟩
      · exact ⟨⟨p, some e, el⟩ :: tl,
          by rw [htl]; simp [process_future, scan_port]⟩
    · exact ⟨⟨p, some msg, 0⟩ :: tl, by rw [htl]; simp [process_future]⟩

theorem closed_mem_foldl {fates : List ProbeFate} {acc : ScanResults}
    {c : ClosedEntry} (hc : c ∈ acc.results_closed) :
    c ∈ (fates.foldl process_future acc).results_closed := by
  obtain ⟨tl, htl⟩ := foldl_closed_extend fates acc
  rw [htl]
  exact List.mem_append_left _ hc

/-- A unit whose `connect_ex` raised ends up in the closed bucket with its
message. -/
theorem fault_mem_foldl {p : Nat} {e : String} {el : Nat}
    (fates : List ProbeFate) : ∀ acc : ScanResults,
    (⟨p, .result (.exc e) el⟩ : ProbeFate) ∈ fates →
    (⟨p, some e, el⟩ : ClosedEntry)
      ∈ (fates.foldl process_future acc).results_closed := by
  induction fates with
  | nil => intro acc h; cases h
  | cons f rest ih =>
    intro acc hmem
    rw [List.foldl_cons]
    rcases List.mem_cons.mp hmem with rfl | h'
    · exact closed_mem_foldl (by simp [process_future, scan_port])
    · exact ih _ h'

/-- A unit whose `fut.result()` raised ends up in the closed bucket with its
message and elapsed `0.0`. -/
theorem raised_mem_foldl {p : Nat} {e : String}
    (fates : List ProbeFate) : ∀ acc : ScanResults,
    (⟨p, .raised e⟩ : ProbeFate) ∈ fates →
    (⟨p, some e, 0⟩ : ClosedEntry)
      ∈ (fates.foldl process_future acc).results_closed := by
  induction fates with
  | nil => intro acc h; cases h
  | cons f rest ih =>
    intro acc hmem
    rw [List.foldl_cons]
    rcases List.mem_cons.mp hmem with rfl | h'
    · exact closed_mem_foldl (by simp [process_future])
    · exact ih _ h'

/-- An interrupt delivered mid-loop produces exactly the buckets of the
prefix processed before it fired, and the loop re-raises. -/
theorem scan_loop_int_spec : ∀ (fates : List ProbeFate) (i : Nat)
    (acc : ScanResults), i < fates.length →
    scan_loop_int fates i acc
      = Except.error ((fates.take i).foldl process_future acc) := by
  intro fates
  induction fates with
  | nil => intro i acc h; exact absurd h (by simp)
  | cons f rest ih =>
    intro i acc h
    cases i with
    | zero => rfl
    | succ j =>
      rw [show scan_loop_int (f :: rest) (j + 1) acc
        = scan_loop_int rest j (process_future acc f) from rfl]
      rw [ih j (process_future acc f) (by simpa using Nat.lt_of_succ_lt_succ h)]
      rfl

/-! ### Claim theorems about the engine -/

/-- C1 (amended): for every run that completes without interruption, every
submitted unit appears in exactly one outcome: the open and closed bucket
sizes sum to the number of submitted units, and the multiset of ports in the
buckets is exactly the multiset of submitted ports (no duplicates, no
omissions).  Under mid-run interruption this fails: see the
counterexample. -/
theorem C1_totality_uninterrupted (fates : List ProbeFate) :
    scan_ports_concurrent_cancellable fates none
        = Except.ok (scan_ports_concurrent fates)
    ∧ (scan_ports_concurrent fates).results_open.length
        + (scan_ports_concurrent fates).results_closed.length = fates.length
    ∧ portsMultiset (scan_ports_concurrent fates)
        = ((fates.map ProbeFate.port : List Nat) : Multiset Nat) := by
  refine ⟨rfl, ?_, ?_⟩
  · have h := foldl_counts fates ⟨[], []⟩
    simpa [scan_ports_concurrent] using h
  · have h := foldl_ports fates ⟨[], []⟩
    simpa [scan_ports_concurrent, portsMultiset] using h

/-- C1 counterexample: with two submitted units and a `KeyboardInterrupt`
after one loop iteration, the run aborts by re-raising; the buckets at that
point cover one unit, not two, so totality fails under cancellation. -/
theorem C1_counterexample_interrupt :
    (scan_ports_concurrent_cancellable
        [⟨22, .result (.code 0) 1⟩, ⟨80, .result (.code 1) 2⟩] (some 1)
      = Except.error ⟨[⟨22, 1⟩], []⟩)
    ∧ ((⟨[⟨22, 1⟩], []⟩ : ScanResults).results_open.length
        + (⟨[⟨22, 1⟩], []⟩ : ScanResults).results_closed.length ≠ 2) :=
  ⟨rfl, by decide⟩

/-- C2: a unit whose probe call raises — either inside `scan_port` (caught
there) or from `fut.result()` (caught in the loop) — is recorded in the
closed/errored bucket with the fault's description, and the run still
accounts for every submitted unit, so siblings are unaffected. -/
theorem C2_probe_fault_error_outcome (fates : List ProbeFate) (p : Nat)
    (e : String) (el : Nat) :
    ((⟨p, .result (.exc e) el⟩ : ProbeFate) ∈ fates →
      (⟨p, some e, el⟩ : ClosedEntry)
        ∈ (scan_ports_concurrent fates).results_closed)
    ∧ ((⟨p, .raised e⟩ : ProbeFate) ∈ fates →
      (⟨p, some e, 0⟩ : ClosedEntry)
        ∈ (scan_ports_concurrent fates).results_closed)
    ∧ (scan_ports_concurrent fates).results_open.length
        + (scan_ports_concurrent fates).results_closed.length
        = fates.length := by
  refine ⟨fun h => fault_mem_foldl fates _ h,
    fun h => raised_mem_foldl fates _ h, ?_⟩
  have h := foldl_counts fates ⟨[], []⟩
  simpa [scan_ports_concurrent] using h

/-- C2 witness: a run where port 22's probe raised `"boom"` records the
fault in the closed bucket and still reports both submitted units. -/
theorem C2_probe_fault_error_outcome_witness :
    ((⟨22, some "boom", 1⟩ : ClosedEntry)
      ∈ (scan_ports_concurrent
          [⟨22, .result (.exc "boom") 1⟩,
            ⟨80, .result (.code 0) 2⟩]).results_closed)
    ∧ (scan_ports_concurrent
          [⟨22, .result (.exc "boom") 1⟩,
            ⟨80, .result (.code 0) 2⟩]).results_open.length
        + (scan_ports_concurrent
          [⟨22, .result (.exc "boom") 1⟩,
            ⟨80, .result (.code 0) 2⟩]).results_closed.length
        = 2 :=
  ⟨(C2_probe_fault_error_outcome
      [⟨22, .result (.exc "boom") 1⟩, ⟨80, .result (.code 0) 2⟩]
      22 "boom" 1).1 (by decide),
    (C2_probe_fault_error_outcome
      [⟨22, .result (.exc "boom") 1⟩, ⟨80, .result (.code 0) 2⟩]
      22 "boom" 1).2.2⟩

/-- C3 (amended): after a mid-run interrupt, the loop processes no further
futures and re-raises `KeyboardInterrupt`; the buckets at that point are
exactly those of the prefix processed before the interrupt.  Undispatched
units are not surfaced as any outcome — in particular not as
ERROR/"cancelled" entries (see the counterexample). -/
theorem C3_interrupt_truncates (fates : List ProbeFate) (i : Nat)
    (hi : i < fates.length) :
    scan_ports_concurrent_cancellable fates (some i)
      = Except.error (scan_ports_concurrent (fates.take i)) :=
  scan_loop_int_spec fates i ⟨[], []⟩ hi

/-- C3 witness: ten submitted units, interrupt after three iterations. -/
theorem C3_interrupt_truncates_witness :
    (3 < ((List.range' 1 10).map
        (fun p => (⟨p, FutFate.result (.code 1) 5⟩ : ProbeFate))).length)
    ∧ scan_ports_concurrent_cancellable
        ((List.range' 1 10).map
          (fun p => (⟨p, FutFate.result (.code 1) 5⟩ : ProbeFate))) (some 3)
      = Except.error (scan_ports_concurrent
          (((List.range' 1 10).map
            (fun p => (⟨p, FutFate.result (.code 1) 5⟩ : ProbeFate))).take 3)) :=
  ⟨by decide,
    C3_interrupt_truncates
      ((List.range' 1 10).map
        (fun p => (⟨p, FutFate.result (.code 1) 5⟩ : ProbeFate))) 3 (by decide)⟩

/-- C3 counterexample: `cancel()` after 3 of 10 units — matching Scenario D
of the spec — yields 3 outcomes, not 10, and none of them carries
`error_detail = "cancelled"`: the 7 undispatched units are simply absent. -/
theorem C3_counterexample_no_cancelled_outcomes :
    (scan_ports_concurrent_cancellable
        ((List.range' 1 10).map
          (fun p => (⟨p, FutFate.result (.code 1) 5⟩ : ProbeFate))) (some 3)
      = Except.error ⟨[], [⟨1, none, 5⟩, ⟨2, none, 5⟩, ⟨3, none, 5⟩]⟩)
    ∧ (([] : List OpenEntry).length
        + [⟨1, none, 5⟩, ⟨2, none, 5⟩, (⟨3, none, 5⟩ : ClosedEntry)].length
        ≠ 10)
    ∧ (∀ c ∈ [⟨1, none, 5⟩, ⟨2, none, 5⟩, (⟨3, none, 5⟩ : ClosedEntry)],
        c.error ≠ some "cancelled") :=
  ⟨rfl, by decide, by decide⟩

/-! ### Claim theorems about the probers, subnet expansion and pool -/

/-- C6 (amended): when the ping invocation raises, `ping_ip` returns
`False` — the very value that means DOWN.  The probe's codomain is `Bool`,
so a mechanism failure is collapsed into the DOWN answer; no distinct ERROR
status exists. -/
theorem C6_fault_collapses_to_down (msg : String) :
    ping_ip (.raised msg) = false
    ∧ ping_ip (.raised msg) = ping_ip (.completed 1) :=
  ⟨rfl, rfl⟩

/-- C6 counterexample: a raised ping invocation is indistinguishable from a
host that answered "down" (nonzero return code) — both yield `false`, so no
status distinct from DOWN is reported. -/
theorem C6_counterexample_fault_indistinct :
    ping_ip (.raised "ping: permission denied") = ping_ip (.completed 1)
    ∧ ping_ip (.raised "ping: permission denied") = false :=
  ⟨rfl, rfl⟩

/-- C7: a UDP probe reports OPEN exactly when `connect_ex` raised no
immediate network-unreachable fault, and CLOSED otherwise; its whole output
is this single bit, so no stronger protocol-level answer is ever claimed. -/
theorem C7_udp_open_heuristic (fault : Option Int) (h0 : fault ≠ some 0) :
    (is_port_open "UDP" (udp_connect_ex fault) = Except.ok true ↔ fault = none)
    ∧ (fault ≠ none →
        is_port_open "UDP" (udp_connect_ex fault) = Except.ok false) := by
  have base : ∀ x : Int,
      is_port_open "UDP" x = Except.ok (if x = 0 then true else false) :=
    fun x => rfl
  rcases fault with _ | e
  · simp [base, udp_connect_ex]
  · have he : e ≠ 0 := fun h => h0 (by rw [h])
    simp [base, udp_connect_ex, he]

/-- C7 witness: an immediate ENETUNREACH-style fault (errno 101) makes the
UDP probe report CLOSED. -/
theorem C7_udp_open_heuristic_witness :
    ((some (101 : Int) ≠ some 0)
      ∧ (is_port_open "UDP" (udp_connect_ex (some 101)) = Except.ok true
          ↔ (some (101 : Int)) = none))
    ∧ is_port_open "UDP" (udp_connect_ex (some 101)) = Except.ok false :=
  ⟨⟨by decide, (C7_udp_open_heuristic (some 101) (by decide)).1⟩,
    (C7_udp_open_heuristic (some 101) (by decide)).2 (by decide)⟩

/-- C8 (amended): for every subnet of prefix length at most 30, the host
sequence produced for the liveness sweep excludes the subnet's network and
broadcast addresses.  (For /31 and /32 subnets, `hosts()` includes them: see
the counterexample.) -/
theorem C8_hosts_exclude_network_broadcast (addr p : Nat) (hp : p ≤ 30) :
    network_address addr p ∉ hosts addr p
    ∧ broadcast_address addr p ∉ hosts addr p := by
  have h31 : p ≠ 31 := by omega
  have h32 : p ≠ 32 := by omega
  have hpow : 4 ≤ 2 ^ (32 - p) :=
    calc (4 : Nat) = 2 ^ 2 := rfl
    _ ≤ 2 ^ (32 - p) := Nat.pow_le_pow_right (by omega) (by omega)
  rw [hosts, broadcast_address, if_neg h31, if_neg h32]
  generalize network_address addr p = net
  generalize hk : 2 ^ (32 - p) = k at hpow ⊢
  constructor <;> intro hmem <;> rw [List.mem_range'_1] at hmem <;> omega

/-- C8 witness: for 192.168.1.0/24, neither the network nor the broadcast
address is scanned. -/
theorem C8_hosts_exclude_network_broadcast_witness :
    ((24 : Nat) ≤ 30)
    ∧ (network_address 3232235776 24 ∉ hosts 3232235776 24
      ∧ broadcast_address 3232235776 24 ∉ hosts 3232235776 24) :=
  ⟨by decide, C8_hosts_exclude_network_broadcast 3232235776 24 (by decide)⟩

/-- C8 counterexample: for the /31 subnet 192.168.1.0/31 the produced host
sequence contains both the network address and the broadcast address, so
the exclusion does not hold for every subnet. -/
theorem C8_counterexample_slash31 :
    network_address 3232235776 31 ∈ hosts 3232235776 31
    ∧ broadcast_address 3232235776 31 ∈ hosts 3232235776 31 := by
  constructor <;> decide

/-- C9: in every pool state reachable from the initial state of a run with
`max_workers = k`, at most `k` probes are in flight.  The bound is
structural: the pool has exactly `k` worker threads and each runs at most
one probe, so `inFlight` — a count over the `k` worker slots — can never
exceed `k` in any state the step relation can produce. -/
theorem C9_bounded_concurrency (k : Nat) (ports : List Nat) (s : PoolState k)
    (h : Relation.ReflTransGen (PoolStep k) (initState k ports) s) :
    inFlight s ≤ k :=
  calc inFlight s ≤ (List.ofFn s.workers).length := List.countP_le_length _
  _ = k := by simp

/-- C9 witness: a two-worker pool after dispatching the first of three
ports has at most two probes in flight. -/
theorem C9_bounded_concurrency_witness :
    inFlight
      (⟨[2, 3],
        Function.update (fun _ => (none : Option Nat)) (0 : Fin 2) (some 1),
        []⟩ : PoolState 2) ≤ 2 :=
  C9_bounded_concurrency 2 [1, 2, 3] _
    (Relation.ReflTransGen.tail Relation.ReflTransGen.refl
      (PoolStep.dispatch (initState 2 [1, 2, 3]) 0 1 [2, 3] rfl rfl))

end NetTools
